import Mathlib

/-!
Shallow embedding of the PSBT core of the harvy tax-harvesting backend
(src/psbt-utils.js and the transaction endpoints of src/server.js),
together with proofs of the specified properties.

Conventions:
* satoshi amounts are `Nat` (they are non-negative integers in the source);
  JS numbers that may be negative (prices sent by a client) are `Int`;
  USD amounts and BTC prices are `Rat` (exact arithmetic; `Math.round`
  is Mathlib's `round`, which rounds half up exactly like JS).
* network effects (mempool.space lookups) are modelled by a `Chain` oracle
  plus an explicit list of performed `NetCall`s returned next to the result,
  so that "no network call happens before this rejection" is the statement
  that the returned call list is empty.
* `throw new Error(...)` is modelled by `Except`.
-/

namespace Harvy

/-- A UTXO as returned by the mempool API: txid, vout and value in sats. -/
structure UTXO where
  txid : String
  vout : Nat
  value : Nat
deriving Repr, DecidableEq

/-- Sum of the values of a list of UTXOs. -/
def utxoSum (l : List UTXO) : Nat := (l.map UTXO.value).sum

/-- The sort order used by selectUTXOs: the JS comparator returning
a.value - b.value, i.e. ascending by value. -/
def valueLE (a b : UTXO) : Prop := a.value ≤ b.value

instance : DecidableRel valueLE := fun a b =>
  inferInstanceAs (Decidable (a.value ≤ b.value))

instance : IsTotal UTXO valueLE := ⟨fun a b => Nat.le_total a.value b.value⟩

instance : IsTrans UTXO valueLE := ⟨fun _ _ _ => Nat.le_trans⟩

/-- Result record of selectUTXOs: the selected array, the accumulated total
and the change (total - target - feeEstimate). -/
structure SelectResult where
  selected : List UTXO
  total : Nat
  change : Nat
deriving Repr, DecidableEq

/-- The one failure of selectUTXOs: the insufficient-funds throw, which
reports how much was available and how much was needed. -/
inductive SelectError where
  | insufficientFunds (haveSats needSats : Nat)
deriving Repr, DecidableEq

/-- The for-loop of selectUTXOs: push each UTXO, add its value to the running
total, and break as soon as the total reaches needed. Returns the selected
list and the final total. -/
def selectLoop (needed : Nat) : List UTXO → Nat → List UTXO × Nat
  | [], total => ([], total)
  | u :: rest, total =>
    if needed ≤ total + u.value then ([u], total + u.value)
    else
      (u :: (selectLoop needed rest (total + u.value)).1,
        (selectLoop needed rest (total + u.value)).2)

/-- selectUTXOs from psbt-utils.js: sort a copy of the candidates ascending
by value, accumulate smallest-first until target + feeEstimate is reached,
throw if the whole list is not enough, otherwise report the selection,
its total and the change. -/
def selectUTXOs (utxos : List UTXO) (targetSats feeEstimate : Nat) :
    Except SelectError SelectResult :=
  let sorted := List.insertionSort valueLE utxos
  let needed := targetSats + feeEstimate
  let step := selectLoop needed sorted 0
  if step.2 < needed then
    .error (.insufficientFunds step.2 needed)
  else
    .ok ⟨step.1, step.2, step.2 - targetSats - feeEstimate⟩

/-! Unit conversions from psbt-utils.js. JS Math.round rounds half towards
positive infinity, exactly like Mathlib round. -/

/-- usdToSats from psbt-utils.js: Math.round(usd / btcPriceUSD * 1e8). -/
def usdToSats (usd btcPriceUSD : ℚ) : ℤ :=
  round (usd / btcPriceUSD * 100000000)

/-- satsToUSD from psbt-utils.js: Math.round(sats / 1e8 * btcPriceUSD * 100) / 100
(rounded to two decimals). -/
def satsToUSD (sats btcPriceUSD : ℚ) : ℚ :=
  ((round (sats / 100000000 * btcPriceUSD * 100) : ℤ) : ℚ) / 100

/-- Round to two decimals, as Math.round(x * 100) / 100. -/
def round2 (x : ℚ) : ℚ := ((round (x * 100) : ℤ) : ℚ) / 100

/-- Fee quote record returned by calculateServiceFee; tierMax none stands for
the Infinity ceiling of the last tier. -/
structure FeeQuote where
  feeUSD : ℚ
  feePercent : ℚ
  tier : Nat
  tierMax : Option ℚ
deriving Repr, DecidableEq

/-- calculateServiceFee from psbt-utils.js with the default tier table
(the loop over the tiers array unrolled; each tier applies its percent and
rounds to two decimals). -/
def calculateServiceFee (taxSavingsUSD : ℚ) : FeeQuote :=
  if taxSavingsUSD ≤ 100 then
    ⟨round2 (taxSavingsUSD * (5 / 100)), 5, 1, some 100⟩
  else if taxSavingsUSD ≤ 500 then
    ⟨round2 (taxSavingsUSD * (7 / 100)), 7, 2, some 500⟩
  else if taxSavingsUSD ≤ 2000 then
    ⟨round2 (taxSavingsUSD * (10 / 100)), 10, 3, some 2000⟩
  else if taxSavingsUSD ≤ 10000 then
    ⟨round2 (taxSavingsUSD * (12 / 100)), 12, 4, some 10000⟩
  else
    ⟨round2 (taxSavingsUSD * (15 / 100)), 15, 5, none⟩

/-! The finalizer, broadcastPSBT from psbt-utils.js. Parsing of the base64
serialization and signature cryptography are abstracted: a parsed PSBT is its
input list (each input carrying whether its signature set is complete, which
is what finalizeAllInputs checks) and its output list. -/

/-- One input of a PSBT submitted for finalization. -/
structure PsbtInput where
  fullySigned : Bool
deriving Repr, DecidableEq

/-- One output of a PSBT submitted for finalization. -/
structure PsbtOutput where
  address : String
  value : Nat
deriving Repr, DecidableEq

/-- A parsed PSBT as seen by broadcastPSBT. -/
structure ParsedPSBT where
  inputs : List PsbtInput
  outputs : List PsbtOutput
deriving Repr, DecidableEq

/-- The 10 BTC output-value ceiling from broadcastPSBT. -/
def MAX_TOTAL_OUTPUT_SATS : Nat := 1000000000

/-- Sum of all output values of a parsed PSBT. -/
def psbtOutputTotal (psbt : ParsedPSBT) : Nat :=
  (psbt.outputs.map PsbtOutput.value).sum

/-- Failures of broadcastPSBT, in the order the source can raise them. -/
inductive BroadcastError where
  | noInputs
  | tooFewOutputs
  | outputTotalTooHigh (totalSats : Nat)
  | finalizationError
  | broadcastRejected (msg : String)
deriving Repr, DecidableEq

/-- broadcastPSBT from psbt-utils.js: the three structural sanity checks, then
finalizeAllInputs (fails when some input lacks a complete signature set), then
the POST of the raw transaction, modelled by the submit oracle. The Bool
component records whether a broadcast attempt reached the network. -/
def broadcastPSBT (psbt : ParsedPSBT) (submit : Except String String) :
    Except BroadcastError String × Bool :=
  if psbt.inputs.length < 1 then (.error .noInputs, false)
  else if psbt.outputs.length < 2 then (.error .tooFewOutputs, false)
  else if MAX_TOTAL_OUTPUT_SATS < psbtOutputTotal psbt then
    (.error (.outputTotalTooHigh (psbtOutputTotal psbt)), false)
  else if psbt.inputs.any (fun i => !i.fullySigned) then
    (.error .finalizationError, false)
  else
    match submit with
    | .ok txid => (.ok txid, true)
    | .error msg => (.error (.broadcastRejected msg), true)

/-! The PSBT builders. Network effects are a Chain oracle plus an explicit
list of performed NetCalls; string helpers are written over Char lists
(structural recursion) mirroring what the source does with split and
parseInt. -/

/-- A mempool-API network call performed by a builder. -/
inductive NetCall where
  | fetchUTXOs (address : String)
  | fetchTxHex (txid : String)
deriving Repr, DecidableEq

/-- The external UTXO source: getUTXOs per address, raw hex per txid. -/
structure Chain where
  utxosOf : String → List UTXO
  txHexOf : String → String

/-- Process configuration read by the builders: HARVY_WALLET_ADDRESS and
HARVY_WALLET_PRIVATE_KEY. -/
structure Env where
  harvyAddress : Option String
  harvyPrivateKey : Option String
deriving Repr, DecidableEq

/-- Split a character list at every occurrence of c, as String.split does in
the JS source. -/
def splitOnChar (c : Char) : List Char → List (List Char)
  | [] => [[]]
  | x :: xs =>
    if x = c then [] :: splitOnChar c xs
    else
      match splitOnChar c xs with
      | [] => [[x]]
      | g :: gs => (x :: g) :: gs

/-- parseInt(s, 10) on the leading digit run; none models NaN. -/
def parseIntDigits (l : List Char) : Option Nat :=
  let digits := l.takeWhile Char.isDigit
  if digits.isEmpty then none
  else some (digits.foldl (fun acc c => acc * 10 + (c.toNat - 48)) 0)

/-- The parsing step of findInscriptionUTXO: split the inscription id on the
letter i into exactly a txid part and a vout part, parse the vout. -/
def parseInscriptionId (inscriptionId : String) : Option (String × Nat) :=
  match splitOnChar 'i' inscriptionId.data with
  | [txidChars, voutChars] =>
    match parseIntDigits voutChars with
    | some vout => some (String.mk txidChars, vout)
    | none => none
  | _ => none

/-- Failures raised by the two PSBT builders. -/
inductive BuildError where
  | offerBelowDust
  | walletNotConfigured
  | invalidInscriptionId (inscriptionId : String)
  | inscriptionNotFound (inscriptionId : String)
  | noHarvyUTXOs
  | selectFailed (e : SelectError)
  | privateKeyNotConfigured
  | noOrdinals
  | batchTooLarge
deriving Repr, DecidableEq

/-- Parameters of createOrdinalPurchasePSBT (btcPriceUSD is destructured in
the source but never used by the builder). -/
structure PurchaseParams where
  inscriptionId : String
  sellerAddress : String
  sellerPaymentUTXOs : List UTXO
  purchasePriceSats : Nat
  offerSats : Nat
  serviceFeeSats : Nat
deriving Repr, DecidableEq

/-- The details.outputs record of the single-swap builder. -/
structure SwapAmounts where
  sellerPayment : Nat
  inscriptionValue : Nat
  serviceFee : Nat
  harvyChange : Nat
deriving Repr, DecidableEq

/-- The details record of the single-swap builder. -/
structure PurchaseDetails where
  harvyInputCount : Nat
  sellerInputCount : Nat
  inscriptionUTXO : UTXO
  outputs : SwapAmounts
deriving Repr, DecidableEq

/-- What the single-swap builder returns: the PSBT (as its ordered input and
output descriptor lists; serialization is out of the model) and the details
record. -/
structure PurchaseResult where
  psbtInputs : List UTXO
  psbtOutputs : List PsbtOutput
  details : PurchaseDetails
deriving Repr, DecidableEq

/-- createOrdinalPurchasePSBT from psbt-utils.js. Checks and effects appear
in source order: dust check, wallet-address check, inscription lookup (one
getUTXOs on the seller address), operator getUTXOs, selectUTXOs with the
fixed 1500-sat fee estimate, raw-hex lookups while inputs are added (operator
inputs, then the inscription input, then the seller payment inputs), the four
outputs (service fee omitted when zero, operator change omitted when not
above 546 sats), and the private-key check of loadHarvyKeyPair before
signing. Signing and signature self-validation are abstracted (the model has
no cryptography); a missing key still fails exactly where the source throws. -/
def createOrdinalPurchasePSBT (env : Env) (chain : Chain) (p : PurchaseParams) :
    Except BuildError PurchaseResult × List NetCall :=
  if p.offerSats < 600 then (.error .offerBelowDust, [])
  else
    match env.harvyAddress with
    | none => (.error .walletNotConfigured, [])
    | some harvyAddress =>
      match parseInscriptionId p.inscriptionId with
      | none => (.error (.invalidInscriptionId p.inscriptionId), [])
      | some txidVout =>
        match (chain.utxosOf p.sellerAddress).find?
            (fun u => decide (u.txid = txidVout.1) && decide (u.vout = txidVout.2)) with
        | none => (.error (.inscriptionNotFound p.inscriptionId),
            [.fetchUTXOs p.sellerAddress])
        | some inscriptionUTXO =>
          let harvyUTXOs := chain.utxosOf harvyAddress
          let log2 : List NetCall :=
            [.fetchUTXOs p.sellerAddress, .fetchUTXOs harvyAddress]
          if harvyUTXOs.isEmpty then (.error .noHarvyUTXOs, log2)
          else
            match selectUTXOs harvyUTXOs p.offerSats 1500 with
            | .error e => (.error (.selectFailed e), log2)
            | .ok sel =>
              let log3 := log2 ++ sel.selected.map (fun u => NetCall.fetchTxHex u.txid)
                ++ [NetCall.fetchTxHex inscriptionUTXO.txid]
                ++ p.sellerPaymentUTXOs.map (fun u => NetCall.fetchTxHex u.txid)
              if env.harvyPrivateKey.isNone then (.error .privateKeyNotConfigured, log3)
              else
                (.ok
                  { psbtInputs := sel.selected ++ [inscriptionUTXO] ++ p.sellerPaymentUTXOs,
                    psbtOutputs :=
                      [⟨p.sellerAddress, p.offerSats⟩, ⟨harvyAddress, inscriptionUTXO.value⟩]
                      ++ (if 0 < p.serviceFeeSats then [⟨harvyAddress, p.serviceFeeSats⟩] else [])
                      ++ (if 546 < sel.change then [⟨harvyAddress, sel.change⟩] else []),
                    details :=
                      { harvyInputCount := sel.selected.length,
                        sellerInputCount := 1 + p.sellerPaymentUTXOs.length,
                        inscriptionUTXO := inscriptionUTXO,
                        outputs :=
                          { sellerPayment := p.offerSats,
                            inscriptionValue := inscriptionUTXO.value,
                            serviceFee := p.serviceFeeSats,
                            harvyChange := sel.change } } }, log3)

/-- One element of the ordinals array given to the batch builder. -/
structure BatchOrdinal where
  inscriptionId : String
  purchasePriceSats : Int
  currentPriceSats : Int
deriving Repr, DecidableEq

/-- Parameters of createBatchedOrdinalPurchasePSBT. -/
structure BatchParams where
  ordinals : List BatchOrdinal
  sellerAddress : String
  totalOfferSats : Nat
  totalServiceFeeSats : Nat
deriving Repr, DecidableEq

/-- An inscription-holding UTXO found in the seller wallet, with its
inscription id attached as the batch builder does. -/
structure InscriptionUTXO where
  txid : String
  vout : Nat
  value : Nat
  inscriptionId : String
deriving Repr, DecidableEq

/-- Sum of the values of a list of inscription UTXOs. -/
def inscriptionSum (l : List InscriptionUTXO) : Nat :=
  (l.map InscriptionUTXO.value).sum

/-- The first loop of the batch builder: findInscriptionUTXO for every
ordinal (one getUTXOs on the seller address per ordinal), aborting on the
first ordinal whose UTXO is missing. -/
def collectInscriptionUTXOs (chain : Chain) (sellerAddress : String) :
    List BatchOrdinal → Except BuildError (List InscriptionUTXO) × List NetCall
  | [] => (.ok [], [])
  | ord :: rest =>
    match parseInscriptionId ord.inscriptionId with
    | none => (.error (.invalidInscriptionId ord.inscriptionId), [])
    | some txidVout =>
      match (chain.utxosOf sellerAddress).find?
          (fun u => decide (u.txid = txidVout.1) && decide (u.vout = txidVout.2)) with
      | none => (.error (.inscriptionNotFound ord.inscriptionId),
          [.fetchUTXOs sellerAddress])
      | some u =>
        match collectInscriptionUTXOs chain sellerAddress rest with
        | (.ok us, logRest) =>
          (.ok (⟨u.txid, u.vout, u.value, ord.inscriptionId⟩ :: us),
            NetCall.fetchUTXOs sellerAddress :: logRest)
        | (.error e, logRest) =>
          (.error e, NetCall.fetchUTXOs sellerAddress :: logRest)

/-- The seller-inscription-input loop of the batch builder: for each
inscription UTXO fetch its raw hex, record psbt.inputCount as the index the
seller must sign, then append the input. Returns the grown input list, the
recorded indices and the hex lookups performed. -/
def addInscriptionInputsLoop (inputs : List UTXO) :
    List InscriptionUTXO → List UTXO × List Nat × List NetCall
  | [] => (inputs, [], [])
  | u :: rest =>
    let step := addInscriptionInputsLoop (inputs ++ [⟨u.txid, u.vout, u.value⟩]) rest
    (step.1, inputs.length :: step.2.1, NetCall.fetchTxHex u.txid :: step.2.2)

/-- The details.outputs record of the batch builder. -/
structure BatchAmounts where
  sellerPayment : Nat
  inscriptionValues : List Nat
  serviceFee : Nat
  harvyChange : Nat
deriving Repr, DecidableEq

/-- The details record of the batch builder. -/
structure BatchDetails where
  harvyInputCount : Nat
  sellerInputCount : Nat
  sellerInputIndices : List Nat
  inscriptionUTXOs : List InscriptionUTXO
  outputs : BatchAmounts
  estimatedFee : Nat
deriving Repr, DecidableEq

/-- What the batch builder returns. -/
structure BatchResult where
  psbtInputs : List UTXO
  psbtOutputs : List PsbtOutput
  details : BatchDetails
deriving Repr, DecidableEq

/-- createBatchedOrdinalPurchasePSBT from psbt-utils.js, in source order:
empty-batch check, 20-ordinal ceiling, wallet-address check, per-ordinal
inscription lookups, operator getUTXOs, the linear vsize model times the
5 sats per vbyte rate (the integer product needs no ceil), selectUTXOs over
payment plus preserved inscription value, hex lookups while inputs are added
(operator funding inputs first, then the seller inscription inputs with
their indices recorded at push time), the outputs (aggregate payment, one
value-preserving output per inscription, service fee when positive, change
when above 546), and the private-key check before signing. -/
def createBatchedOrdinalPurchasePSBT (env : Env) (chain : Chain) (p : BatchParams) :
    Except BuildError BatchResult × List NetCall :=
  if p.ordinals.isEmpty then (.error .noOrdinals, [])
  else if 20 < p.ordinals.length then (.error .batchTooLarge, [])
  else
    match env.harvyAddress with
    | none => (.error .walletNotConfigured, [])
    | some harvyAddress =>
      match collectInscriptionUTXOs chain p.sellerAddress p.ordinals with
      | (.error e, log1) => (.error e, log1)
      | (.ok inscriptionUTXOs, log1) =>
        let harvyUTXOs := chain.utxosOf harvyAddress
        let log2 := log1 ++ [NetCall.fetchUTXOs harvyAddress]
        if harvyUTXOs.isEmpty then (.error .noHarvyUTXOs, log2)
        else
          let estimatedVsize :=
            10 + 180 * (1 + inscriptionUTXOs.length) + 34 * (2 + inscriptionUTXOs.length)
          let estimatedFee := estimatedVsize * 5
          match selectUTXOs harvyUTXOs
              (p.totalOfferSats + inscriptionSum inscriptionUTXOs) estimatedFee with
          | .error e => (.error (.selectFailed e), log2)
          | .ok sel =>
            let step := addInscriptionInputsLoop sel.selected inscriptionUTXOs
            let log4 := log2 ++ sel.selected.map (fun u => NetCall.fetchTxHex u.txid)
              ++ step.2.2
            if env.harvyPrivateKey.isNone then (.error .privateKeyNotConfigured, log4)
            else
              (.ok
                { psbtInputs := step.1,
                  psbtOutputs :=
                    [⟨p.sellerAddress, p.totalOfferSats⟩]
                    ++ inscriptionUTXOs.map (fun u => PsbtOutput.mk harvyAddress u.value)
                    ++ (if 0 < p.totalServiceFeeSats then
                          [⟨harvyAddress, p.totalServiceFeeSats⟩] else [])
                    ++ (if 546 < sel.change then [⟨harvyAddress, sel.change⟩] else []),
                  details :=
                    { harvyInputCount := sel.selected.length,
                      sellerInputCount := inscriptionUTXOs.length,
                      sellerInputIndices := step.2.1,
                      inscriptionUTXOs := inscriptionUTXOs,
                      outputs :=
                        { sellerPayment := p.totalOfferSats,
                          inscriptionValues := inscriptionUTXOs.map InscriptionUTXO.value,
                          serviceFee := p.totalServiceFeeSats,
                          harvyChange := sel.change },
                      estimatedFee := estimatedFee } }, log4)

/-! The POST /api/create-psbt-offer handler of server.js: the validation
pipeline in front of the single-swap builder. Env-var-configurable constants
appear at their documented defaults: ASSUMED_TAX_RATE 0.30,
MAX_SERVICE_FEE_USD 100, MIN_ORDINAL_PAYMENT_SATS 600, MAX_LOSS_SATS 1e8. -/

/-- The TAPROOT_RE regex of server.js: bc1p followed by 58 to 86 characters
of [0-9a-z], case-insensitively. -/
def isTaprootAddress (address : String) : Bool :=
  match address.data.map Char.toLower with
  | 'b' :: 'c' :: '1' :: 'p' :: rest =>
    decide (58 ≤ rest.length) && decide (rest.length ≤ 86) &&
      rest.all (fun c => c.isDigit || c.isLower)
  | _ => false

/-- JS falsiness of an optional string field (undefined or empty). -/
def optStrFalsy : Option String → Bool
  | none => true
  | some s => s.data.isEmpty

/-- JS falsiness of an optional numeric field (undefined or zero). -/
def optIntFalsy : Option Int → Bool
  | none => true
  | some v => decide (v = 0)

/-- JS falsiness of an optional rational field (undefined or zero). -/
def optRatFalsy : Option ℚ → Bool
  | none => true
  | some v => decide (v = 0)

/-- The request body of POST /api/create-psbt-offer; absent JSON fields are
none, sellerPaymentUTXOs defaults to the empty list as in the source. -/
structure OfferRequest where
  inscriptionId : Option String
  sellerAddress : Option String
  sellerPaymentUTXOs : List UTXO
  purchasePriceSats : Option Int
  currentPriceSats : Option Int
  btcPriceUSD : Option ℚ
  userTaxRate : Option ℚ

/-- The error responses of the handler, one per early return, in source
order. -/
inductive HandlerError where
  | missingFields
  | invalidAddress
  | walletNotConfigured
  | invalidPurchasePrice
  | invalidCurrentPrice
  | invalidBtcPrice
  | gainNotLoss
  | lossTooLarge
  | invalidTaxRate
  | feeTooLarge
  | privateKeyMissing
  | buildFailed (e : BuildError)
deriving Repr, DecidableEq

/-- The success response of the handler (the fields the claims are about). -/
structure OfferResponse where
  result : PurchaseResult
  offerSats : Nat
  serviceFeeSats : Int
  taxLossSats : Int
  taxSavingsUSD : ℚ

/-- The validation and calculation pipeline of POST /api/create-psbt-offer,
ending in the call to createOrdinalPurchasePSBT. The network-call list is
empty on every early return: every rejection of the pipeline happens before
the first mempool lookup. -/
def createPsbtOffer (env : Env) (chain : Chain) (req : OfferRequest) :
    Except HandlerError OfferResponse × List NetCall :=
  if optStrFalsy req.inscriptionId || optStrFalsy req.sellerAddress ||
      optIntFalsy req.purchasePriceSats || optRatFalsy req.btcPriceUSD then
    (.error .missingFields, [])
  else
    let inscriptionId := req.inscriptionId.getD ""
    let sellerAddress := req.sellerAddress.getD ""
    let purchasePriceSats := req.purchasePriceSats.getD 0
    let btcPriceUSD := req.btcPriceUSD.getD 0
    if isTaprootAddress sellerAddress then
      if env.harvyAddress.isNone then (.error .walletNotConfigured, [])
      else if purchasePriceSats ≤ 0 ∨ 100000000 < purchasePriceSats then
        (.error .invalidPurchasePrice, [])
      else if (match req.currentPriceSats with
               | some c => decide (c < 0)
               | none => false) then
        (.error .invalidCurrentPrice, [])
      else if btcPriceUSD ≤ 0 ∨ 10000000 < btcPriceUSD then
        (.error .invalidBtcPrice, [])
      else
        let preliminaryLoss := purchasePriceSats - req.currentPriceSats.getD 0
        if preliminaryLoss < 0 then (.error .gainNotLoss, [])
        else if 100000000 < preliminaryLoss then (.error .lossTooLarge, [])
        else
          let taxLossUSD := satsToUSD (preliminaryLoss : ℚ) btcPriceUSD
          let taxRate := req.userTaxRate.getD (3 / 10)
          if taxRate < 0 ∨ 1 < taxRate then (.error .invalidTaxRate, [])
          else
            let taxSavingsUSD := taxLossUSD * taxRate
            let feeInfo := calculateServiceFee taxSavingsUSD
            let serviceFeeSats := usdToSats feeInfo.feeUSD btcPriceUSD
            if 100 < feeInfo.feeUSD then (.error .feeTooLarge, [])
            else if env.harvyPrivateKey.isNone then (.error .privateKeyMissing, [])
            else
              match createOrdinalPurchasePSBT env chain
                { inscriptionId := inscriptionId,
                  sellerAddress := sellerAddress,
                  sellerPaymentUTXOs := req.sellerPaymentUTXOs,
                  purchasePriceSats := purchasePriceSats.toNat,
                  offerSats := 600,
                  serviceFeeSats := serviceFeeSats.toNat } with
              | (.ok r, calls) =>
                (.ok { result := r, offerSats := 600, serviceFeeSats := serviceFeeSats,
                       taxLossSats := preliminaryLoss, taxSavingsUSD := taxSavingsUSD },
                  calls)
              | (.error e, calls) => (.error (.buildFailed e), calls)
    else (.error .invalidAddress, [])

/-! A small mutable-array heap, to state what the spread-copy in selectUTXOs
does and does not mutate. References are indices into the heap. -/

/-- The heap: one cell per allocated JS array of UTXOs. -/
structure JsArrayHeap where
  arrays : List (List UTXO)
deriving Repr, DecidableEq

/-- Dereference an array on the heap. -/
def readArray (h : JsArrayHeap) (r : Nat) : List UTXO := h.arrays.getD r []

/-- Allocate a fresh array holding v; returns the heap and the new
reference. -/
def allocArray (h : JsArrayHeap) (v : List UTXO) : JsArrayHeap × Nat :=
  (⟨h.arrays ++ [v]⟩, h.arrays.length)

/-- Overwrite the array behind an existing reference (in-place mutation). -/
def writeArray (h : JsArrayHeap) (r : Nat) (v : List UTXO) : JsArrayHeap :=
  ⟨h.arrays.set r v⟩

/-- selectUTXOs with the caller's utxos array living on the heap: the spread
copies the caller's array into a fresh allocation, .sort mutates that copy in
place, and the selection loop reads the sorted copy. The caller's own array
is never written. -/
def selectUTXOsOnHeap (h : JsArrayHeap) (utxosRef : Nat)
    (targetSats feeEstimate : Nat) : JsArrayHeap × Except SelectError SelectResult :=
  let alloc := allocArray h (readArray h utxosRef)
  let h2 := writeArray alloc.1 alloc.2
    (List.insertionSort valueLE (readArray alloc.1 alloc.2))
  let sorted := readArray h2 alloc.2
  let needed := targetSats + feeEstimate
  let step := selectLoop needed sorted 0
  (h2,
    if step.2 < needed then .error (.insufficientFunds step.2 needed)
    else .ok ⟨step.1, step.2, step.2 - targetSats - feeEstimate⟩)

/-! Concrete instances used to witness the theorems and to exhibit
counterexamples. -/

/-- A syntactically valid Taproot seller address (bc1p plus 58 base chars). -/
def sellerAddrA : String :=
  "bc1pqqqqqqqqqqqqqqqqqqqqqqqqqqqqqqqqqqqqqqqqqqqqqqqqqqqqqqqqqq"

/-- A fully configured operator environment. -/
def envA : Env := ⟨some "harvyaddr", some "key"⟩

/-- A chain where the seller holds the inscription UTXO aa:0 worth 600 sats
and the operator wallet holds one 10000-sat UTXO. -/
def chainA : Chain where
  utxosOf := fun a =>
    if a = sellerAddrA then [⟨"aa", 0, 600⟩]
    else if a = "harvyaddr" then [⟨"bb", 0, 10000⟩]
    else []
  txHexOf := fun _ => "deadbeef"

/-- Single-swap parameters over chainA with a zero service fee. -/
def purchaseParamsA : PurchaseParams :=
  { inscriptionId := "aai0", sellerAddress := sellerAddrA, sellerPaymentUTXOs := [],
    purchasePriceSats := 1000000, offerSats := 600, serviceFeeSats := 0 }

/-- The value of createOrdinalPurchasePSBT envA chainA purchaseParamsA. -/
def purchaseResultA : PurchaseResult :=
  { psbtInputs := [⟨"bb", 0, 10000⟩, ⟨"aa", 0, 600⟩],
    psbtOutputs := [⟨sellerAddrA, 600⟩, ⟨"harvyaddr", 600⟩, ⟨"harvyaddr", 7900⟩],
    details :=
      { harvyInputCount := 1,
        sellerInputCount := 1,
        inscriptionUTXO := ⟨"aa", 0, 600⟩,
        outputs :=
          { sellerPayment := 600, inscriptionValue := 600, serviceFee := 0,
            harvyChange := 7900 } } }

/-- The network calls performed for purchaseParamsA. -/
def buildLogA : List NetCall :=
  [.fetchUTXOs sellerAddrA, .fetchUTXOs "harvyaddr", .fetchTxHex "bb",
    .fetchTxHex "aa"]

/-- A request whose current price equals its purchase price (zero loss), with
every other field valid; the explicit zero tax rate is within the accepted
range. -/
def reqB : OfferRequest :=
  { inscriptionId := some "aai0", sellerAddress := some sellerAddrA,
    sellerPaymentUTXOs := [], purchasePriceSats := some 1000000,
    currentPriceSats := some 1000000, btcPriceUSD := some 100000,
    userTaxRate := some 0 }

/-- A chain where the seller holds two inscription UTXOs. -/
def chainB : Chain where
  utxosOf := fun a =>
    if a = sellerAddrA then [⟨"aa", 0, 600⟩, ⟨"cc", 1, 600⟩]
    else if a = "harvyaddr" then [⟨"bb", 0, 10000⟩]
    else []
  txHexOf := fun _ => "beef"

/-- A two-ordinal batch over chainB. -/
def batchParamsB : BatchParams :=
  { ordinals := [⟨"aai0", 5000, 1000⟩, ⟨"cci1", 5000, 1000⟩],
    sellerAddress := sellerAddrA, totalOfferSats := 1200, totalServiceFeeSats := 100 }

/-- The value of createBatchedOrdinalPurchasePSBT envA chainB batchParamsB. -/
def batchResultB : BatchResult :=
  { psbtInputs := [⟨"bb", 0, 10000⟩, ⟨"aa", 0, 600⟩, ⟨"cc", 1, 600⟩],
    psbtOutputs := [⟨sellerAddrA, 1200⟩, ⟨"harvyaddr", 600⟩, ⟨"harvyaddr", 600⟩,
      ⟨"harvyaddr", 100⟩, ⟨"harvyaddr", 4170⟩],
    details :=
      { harvyInputCount := 1,
        sellerInputCount := 2,
        sellerInputIndices := [1, 2],
        inscriptionUTXOs := [⟨"aa", 0, 600, "aai0"⟩, ⟨"cc", 1, 600, "cci1"⟩],
        outputs :=
          { sellerPayment := 1200, inscriptionValues := [600, 600],
            serviceFee := 100, harvyChange := 4170 },
        estimatedFee := 3430 } }

-- ===================== THEOREMS =====================

theorem selectLoop_total_eq (needed : Nat) :
    ∀ (l : List UTXO) (total : Nat),
      (selectLoop needed l total).2 = total + utxoSum (selectLoop needed l total).1 := by
  intro l
  induction l with
  | nil => intro total; simp [selectLoop, utxoSum]
  | cons u rest ih =>
    intro total
    by_cases h : needed ≤ total + u.value
    · simp [selectLoop, h, utxoSum]
    · simp only [selectLoop, if_neg h]
      have := ih (total + u.value)
      simp only [utxoSum, List.map_cons, List.sum_cons] at this ⊢
      omega

theorem selectLoop_isPrefix (needed : Nat) :
    ∀ (l : List UTXO) (total : Nat),
      ∃ rest, l = (selectLoop needed l total).1 ++ rest := by
  intro l
  induction l with
  | nil => intro total; exact ⟨[], rfl⟩
  | cons u rest ih =>
    intro total
    by_cases h : needed ≤ total + u.value
    · exact ⟨rest, by simp [selectLoop, h]⟩
    · obtain ⟨tail, htail⟩ := ih (total + u.value)
      exact ⟨tail, by simp only [selectLoop, if_neg h, List.cons_append]
                      exact congrArg (u :: ·) htail⟩

theorem selectLoop_exhausts (needed : Nat) :
    ∀ (l : List UTXO) (total : Nat),
      (selectLoop needed l total).2 < needed → (selectLoop needed l total).1 = l := by
  intro l
  induction l with
  | nil => intro total _; rfl
  | cons u rest ih =>
    intro total hlt
    by_cases h : needed ≤ total + u.value
    · simp only [selectLoop, if_pos h] at hlt; omega
    · simp only [selectLoop, if_neg h] at hlt ⊢
      exact congrArg (u :: ·) (ih (total + u.value) hlt)

theorem selectLoop_stops (needed : Nat) :
    ∀ (l : List UTXO) (total k : Nat), 0 < k →
      k < (selectLoop needed l total).1.length →
      total + utxoSum ((selectLoop needed l total).1.take k) < needed := by
  intro l
  induction l with
  | nil => intro total k _ hk; simp [selectLoop] at hk
  | cons u rest ih =>
    intro total k hk hklen
    by_cases h : needed ≤ total + u.value
    · simp only [selectLoop, if_pos h, List.length_cons, List.length_nil] at hklen
      omega
    · simp only [selectLoop, if_neg h, List.length_cons] at hklen ⊢
      match k, hk with
      | 1, _ =>
        simp only [List.take_succ_cons, List.take_zero, utxoSum, List.map_cons,
          List.map_nil, List.sum_cons, List.sum_nil]
        omega
      | (j + 2), _ =>
        have hj : 0 < j + 1 := Nat.succ_pos j
        have hjlen : j + 1 < (selectLoop needed rest (total + u.value)).1.length := by
          omega
        have := ih (total + u.value) (j + 1) hj hjlen
        simp only [List.take_succ_cons, utxoSum, List.map_cons, List.sum_cons] at this ⊢
        omega

/-- Facts available whenever selectUTXOs succeeds: the reported total is the
sum of the selection, it covers target + feeEstimate, the change is the
difference, the selection is a prefix of the ascending-sorted candidate list,
and the loop stopped as soon as the threshold was reached (every shorter
nonempty prefix sums to less than the threshold). -/
theorem selectUTXOs_ok_spec (utxos : List UTXO) (targetSats feeEstimate : Nat)
    (res : SelectResult)
    (h : selectUTXOs utxos targetSats feeEstimate = .ok res) :
    res.total = utxoSum res.selected ∧
    targetSats + feeEstimate ≤ res.total ∧
    res.change = res.total - (targetSats + feeEstimate) ∧
    (∃ rest, List.insertionSort valueLE utxos = res.selected ++ rest) ∧
    (∀ k, 0 < k → k < res.selected.length →
      utxoSum (res.selected.take k) < targetSats + feeEstimate) := by
  simp only [selectUTXOs] at h
  by_cases hlt : (selectLoop (targetSats + feeEstimate)
      (List.insertionSort valueLE utxos) 0).2 < targetSats + feeEstimate
  · rw [if_pos hlt] at h; exact absurd h (by simp)
  · rw [if_neg hlt] at h
    have htotal := selectLoop_total_eq (targetSats + feeEstimate)
      (List.insertionSort valueLE utxos) 0
    have hpre := selectLoop_isPrefix (targetSats + feeEstimate)
      (List.insertionSort valueLE utxos) 0
    have hstops := selectLoop_stops (targetSats + feeEstimate)
      (List.insertionSort valueLE utxos) 0
    cases h
    refine ⟨?_, ?_, ?_, ?_, ?_⟩
    · dsimp only; omega
    · dsimp only; omega
    · dsimp only; omega
    · dsimp only; exact hpre
    · dsimp only
      intro k hk hklen
      have := hstops k hk hklen
      omega

/-- When the whole candidate set cannot cover the target, selectUTXOs throws
insufficient funds, reporting the full sum as what it had. -/
theorem selectUTXOs_insufficient_spec (utxos : List UTXO) (targetSats feeEstimate : Nat)
    (h : utxoSum utxos < targetSats + feeEstimate) :
    selectUTXOs utxos targetSats feeEstimate =
      .error (.insufficientFunds (utxoSum utxos) (targetSats + feeEstimate)) := by
  simp only [selectUTXOs]
  set sorted := List.insertionSort valueLE utxos with hsortdef
  have hsum : utxoSum sorted = utxoSum utxos := by
    have hperm : List.Perm sorted utxos := List.perm_insertionSort valueLE utxos
    simpa [utxoSum] using (hperm.map UTXO.value).sum_eq
  have htot : (selectLoop (targetSats + feeEstimate) sorted 0).2 ≤ utxoSum sorted := by
    obtain ⟨rest, hrest⟩ := selectLoop_isPrefix (targetSats + feeEstimate) sorted 0
    have := selectLoop_total_eq (targetSats + feeEstimate) sorted 0
    have hsub : utxoSum sorted =
        utxoSum (selectLoop (targetSats + feeEstimate) sorted 0).1 + utxoSum rest := by
      conv_lhs => rw [hrest]
      simp [utxoSum]
    omega
  have hlt : (selectLoop (targetSats + feeEstimate) sorted 0).2 < targetSats + feeEstimate := by
    omega
  rw [if_pos hlt]
  have hall := selectLoop_exhausts (targetSats + feeEstimate) sorted 0 hlt
  have := selectLoop_total_eq (targetSats + feeEstimate) sorted 0
  rw [hall] at this
  simp only [Nat.zero_add] at this
  rw [this, hsum]

theorem selectUTXOs_isOk_of_sufficient (utxos : List UTXO) (targetSats feeEstimate : Nat)
    (h : targetSats + feeEstimate ≤ utxoSum utxos) :
    ∃ res, selectUTXOs utxos targetSats feeEstimate = .ok res := by
  simp only [selectUTXOs]
  set sorted := List.insertionSort valueLE utxos with hsortdef
  have hsum : utxoSum sorted = utxoSum utxos := by
    have hperm : List.Perm sorted utxos := List.perm_insertionSort valueLE utxos
    simpa [utxoSum] using (hperm.map UTXO.value).sum_eq
  by_cases hlt : (selectLoop (targetSats + feeEstimate) sorted 0).2 < targetSats + feeEstimate
  · exfalso
    have hall := selectLoop_exhausts (targetSats + feeEstimate) sorted 0 hlt
    have htot := selectLoop_total_eq (targetSats + feeEstimate) sorted 0
    rw [hall] at htot
    omega
  · exact ⟨_, by rw [if_neg hlt]⟩

/-- C3: selector correctness. When the candidate set can cover
target + feeEstimate, selectUTXOs returns a selection that is a prefix of the
ascending-by-value sorted permutation of the candidates, whose sum (the
reported total) covers target + feeEstimate, with change = total - target -
feeEstimate, and the loop stopped as soon as the threshold was met (every
shorter nonempty prefix of the selection is below the threshold). When the
candidate set cannot cover it, selectUTXOs fails with insufficient funds and
selects nothing. -/
theorem selectUTXOs_correct (utxos : List UTXO) (targetSats feeEstimate : Nat) :
    (targetSats + feeEstimate ≤ utxoSum utxos →
      ∃ res, selectUTXOs utxos targetSats feeEstimate = .ok res ∧
        res.total = utxoSum res.selected ∧
        targetSats + feeEstimate ≤ res.total ∧
        res.change = res.total - (targetSats + feeEstimate) ∧
        (∃ rest, List.insertionSort valueLE utxos = res.selected ++ rest) ∧
        List.Sorted valueLE (List.insertionSort valueLE utxos) ∧
        List.Perm (List.insertionSort valueLE utxos) utxos ∧
        (∀ k, 0 < k → k < res.selected.length →
          utxoSum (res.selected.take k) < targetSats + feeEstimate)) ∧
    (utxoSum utxos < targetSats + feeEstimate →
      selectUTXOs utxos targetSats feeEstimate =
        .error (.insufficientFunds (utxoSum utxos) (targetSats + feeEstimate))) := by
  constructor
  · intro h
    obtain ⟨res, hres⟩ := selectUTXOs_isOk_of_sufficient utxos targetSats feeEstimate h
    obtain ⟨h1, h2, h3, h4, h5⟩ := selectUTXOs_ok_spec utxos targetSats feeEstimate res hres
    exact ⟨res, hres, h1, h2, h3, h4,
      List.sorted_insertionSort valueLE utxos,
      List.perm_insertionSort valueLE utxos, h5⟩
  · intro h
    exact selectUTXOs_insufficient_spec utxos targetSats feeEstimate h

/-- Witness for C3: both branches exercised at concrete inputs. -/
theorem selectUTXOs_correct_witness :
    (∃ res, selectUTXOs [⟨"aa", 0, 700⟩, ⟨"bb", 1, 200⟩] 500 100 = .ok res ∧
      res.total = utxoSum res.selected ∧
      500 + 100 ≤ res.total ∧
      res.change = res.total - (500 + 100) ∧
      (∃ rest, List.insertionSort valueLE [⟨"aa", 0, 700⟩, ⟨"bb", 1, 200⟩] =
        res.selected ++ rest) ∧
      List.Sorted valueLE (List.insertionSort valueLE [⟨"aa", 0, 700⟩, ⟨"bb", 1, 200⟩]) ∧
      List.Perm (List.insertionSort valueLE [⟨"aa", 0, 700⟩, ⟨"bb", 1, 200⟩])
        [⟨"aa", 0, 700⟩, ⟨"bb", 1, 200⟩] ∧
      (∀ k, 0 < k → k < res.selected.length →
        utxoSum (res.selected.take k) < 500 + 100)) ∧
    selectUTXOs [⟨"cc", 0, 50⟩] 100 0 =
      .error (.insufficientFunds 50 100) :=
  ⟨(selectUTXOs_correct [⟨"aa", 0, 700⟩, ⟨"bb", 1, 200⟩] 500 100).1 (by decide),
   (selectUTXOs_correct [⟨"cc", 0, 50⟩] 100 0).2 (by decide)⟩

/-- C7: fee monotonicity. Under the default tier configuration, a larger tax
savings never selects a tier with a smaller percent. -/
theorem calculateServiceFee_monotone (a b : ℚ) (hab : a < b) :
    (calculateServiceFee a).feePercent ≤ (calculateServiceFee b).feePercent := by
  simp only [calculateServiceFee]
  split_ifs <;> dsimp only <;> try norm_num
  all_goals linarith

/-- Witness for C7 at 50 and 200 dollars of tax savings. -/
theorem calculateServiceFee_monotone_witness :
    (50 : ℚ) < 200 ∧
    (calculateServiceFee 50).feePercent ≤ (calculateServiceFee 200).feePercent :=
  ⟨by norm_num, calculateServiceFee_monotone 50 200 (by norm_num)⟩

/-- C5: finalizer structural sanity. Whenever the submitted PSBT has no
input, fewer than two outputs, or a total output value above the 10 BTC
ceiling, broadcastPSBT fails with one of the three structural sanity errors
and no broadcast attempt reaches the network. -/
theorem broadcastPSBT_sanity (psbt : ParsedPSBT) (submit : Except String String)
    (h : psbt.inputs.length < 1 ∨ psbt.outputs.length < 2 ∨
      MAX_TOTAL_OUTPUT_SATS < psbtOutputTotal psbt) :
    ((broadcastPSBT psbt submit).1 = .error .noInputs ∨
      (broadcastPSBT psbt submit).1 = .error .tooFewOutputs ∨
      (broadcastPSBT psbt submit).1 =
        .error (.outputTotalTooHigh (psbtOutputTotal psbt))) ∧
    (broadcastPSBT psbt submit).2 = false := by
  by_cases h1 : psbt.inputs.length < 1
  · simp [broadcastPSBT, h1]
  · by_cases h2 : psbt.outputs.length < 2
    · simp [broadcastPSBT, h1, h2]
    · have h3 : MAX_TOTAL_OUTPUT_SATS < psbtOutputTotal psbt := by tauto
      simp [broadcastPSBT, h1, h2, h3]

/-- Witness for C5: a PSBT with one input and one output fails with a
structural sanity error and nothing is broadcast. -/
theorem broadcastPSBT_sanity_witness :
    ((broadcastPSBT ⟨[⟨true⟩], [⟨"addr", 600⟩]⟩ (.ok "txid")).1 = .error .noInputs ∨
      (broadcastPSBT ⟨[⟨true⟩], [⟨"addr", 600⟩]⟩ (.ok "txid")).1 = .error .tooFewOutputs ∨
      (broadcastPSBT ⟨[⟨true⟩], [⟨"addr", 600⟩]⟩ (.ok "txid")).1 =
        .error (.outputTotalTooHigh (psbtOutputTotal ⟨[⟨true⟩], [⟨"addr", 600⟩]⟩))) ∧
    (broadcastPSBT ⟨[⟨true⟩], [⟨"addr", 600⟩]⟩ (.ok "txid")).2 = false :=
  broadcastPSBT_sanity ⟨[⟨true⟩], [⟨"addr", 600⟩]⟩ (.ok "txid") (by decide)

/-- C6 counterexample: at 3 sats and a BTC price of 100000 dollars the round
trip collapses to 0 sats (the whole amount is below half a cent, which
satsToUSD rounds away), 3 sats off the original, violating the claimed
1-sat tolerance. -/
theorem usdToSats_satsToUSD_roundTrip_cex :
    (0 : ℚ) < 100000 ∧
    usdToSats (satsToUSD 3 100000) 100000 = 0 ∧
    ¬(|((usdToSats (satsToUSD 3 100000) 100000 : ℤ) : ℚ) - 3| ≤ 1) := by
  have h1 : satsToUSD 3 100000 = 0 := by
    norm_num [satsToUSD, round_eq]
  have h2 : usdToSats 0 100000 = 0 := by
    norm_num [usdToSats]
  refine ⟨by norm_num, by rw [h1, h2], ?_⟩
  rw [h1, h2]
  norm_num

/-- C6 as amended: the round trip differs from the original amount by at most
half a cent expressed in sats plus one sat of final rounding, i.e. by at most
500000 / btcPriceUSD + 1 sats; the claimed fixed 1-sat tolerance holds only
when that bound is at most 1. -/
theorem usdToSats_satsToUSD_roundTrip (sats : ℕ) (btcPriceUSD : ℚ)
    (hp : 0 < btcPriceUSD) :
    |((usdToSats (satsToUSD (sats : ℚ) btcPriceUSD) btcPriceUSD : ℤ) : ℚ) - (sats : ℚ)|
      ≤ 500000 / btcPriceUSD + 1 := by
  have hp0 : btcPriceUSD ≠ 0 := ne_of_gt hp
  set x : ℚ := (sats : ℚ) / 100000000 * btcPriceUSD * 100 with hx
  set r : ℤ := round x with hr
  set y : ℚ := (r : ℚ) / 100 / btcPriceUSD * 100000000 with hy
  have husd : usdToSats (satsToUSD (sats : ℚ) btcPriceUSD) btcPriceUSD = round y := rfl
  have hxy : y - (sats : ℚ) = ((r : ℚ) - x) * (1000000 / btcPriceUSD) := by
    rw [hy, hx]
    field_simp
    ring
  have h1 : |(r : ℚ) - x| ≤ 1 / 2 := by
    rw [hr, abs_sub_comm]
    exact abs_sub_round x
  have hmid : |y - (sats : ℚ)| ≤ 500000 / btcPriceUSD := by
    rw [hxy, abs_mul]
    have hpos : |(1000000 : ℚ) / btcPriceUSD| = 1000000 / btcPriceUSD :=
      abs_of_pos (by positivity)
    rw [hpos]
    calc |(r : ℚ) - x| * (1000000 / btcPriceUSD)
        ≤ (1 / 2) * (1000000 / btcPriceUSD) :=
          mul_le_mul_of_nonneg_right h1 (by positivity)
      _ = 500000 / btcPriceUSD := by ring
  have h2 : |((round y : ℤ) : ℚ) - y| ≤ 1 / 2 := by
    rw [abs_sub_comm]
    exact abs_sub_round y
  calc |((usdToSats (satsToUSD (sats : ℚ) btcPriceUSD) btcPriceUSD : ℤ) : ℚ) - (sats : ℚ)|
      = |((round y : ℤ) : ℚ) - (sats : ℚ)| := by rw [husd]
    _ ≤ |((round y : ℤ) : ℚ) - y| + |y - (sats : ℚ)| := abs_sub_le _ y _
    _ ≤ 1 / 2 + 500000 / btcPriceUSD := add_le_add h2 hmid
    _ ≤ 500000 / btcPriceUSD + 1 := by linarith

/-- Witness for the amended C6 at 3 sats and a price of 100000. -/
theorem usdToSats_satsToUSD_roundTrip_witness :
    (0 : ℚ) < 100000 ∧
    |((usdToSats (satsToUSD ((3 : ℕ) : ℚ) 100000) 100000 : ℤ) : ℚ) - ((3 : ℕ) : ℚ)|
      ≤ 500000 / 100000 + 1 :=
  ⟨by norm_num, usdToSats_satsToUSD_roundTrip 3 100000 (by norm_num)⟩

/-- C8: a batch of more than 20 ordinals is rejected with the batch-too-large
error before any network call is performed (the returned call list is
empty). -/
theorem batchTooLarge_rejected (env : Env) (chain : Chain) (p : BatchParams)
    (h : 20 < p.ordinals.length) :
    createBatchedOrdinalPurchasePSBT env chain p = (.error .batchTooLarge, []) := by
  have hne : ¬(p.ordinals.isEmpty = true) := by
    cases hl : p.ordinals with
    | nil => rw [hl] at h; simp at h
    | cons a l => simp [hl]
  simp only [createBatchedOrdinalPurchasePSBT]
  rw [if_neg hne, if_pos h]

/-- Witness for C8: a 21-ordinal batch. -/
theorem batchTooLarge_rejected_witness :
    20 < (List.replicate 21 (BatchOrdinal.mk "aai0" 5000 1)).length ∧
    createBatchedOrdinalPurchasePSBT envA chainA
      ⟨List.replicate 21 ⟨"aai0", 5000, 1⟩, sellerAddrA, 600, 0⟩ =
      (.error .batchTooLarge, []) :=
  ⟨by decide,
   batchTooLarge_rejected envA chainA
     ⟨List.replicate 21 ⟨"aai0", 5000, 1⟩, sellerAddrA, 600, 0⟩ (by decide)⟩

/-- C10: an empty batch is rejected with the no-ordinals error before any
network call is performed (the returned call list is empty). -/
theorem emptyBatch_rejected (env : Env) (chain : Chain) (p : BatchParams)
    (h : p.ordinals = []) :
    createBatchedOrdinalPurchasePSBT env chain p = (.error .noOrdinals, []) := by
  simp [createBatchedOrdinalPurchasePSBT, h]

/-- Witness for C10: the empty batch. -/
theorem emptyBatch_rejected_witness :
    createBatchedOrdinalPurchasePSBT envA chainA ⟨[], sellerAddrA, 0, 0⟩ =
      (.error .noOrdinals, []) :=
  emptyBatch_rejected envA chainA ⟨[], sellerAddrA, 0, 0⟩ rfl

theorem addInscriptionInputsLoop_indices :
    ∀ (l : List InscriptionUTXO) (inputs : List UTXO),
      (addInscriptionInputsLoop inputs l).2.1 = List.range' inputs.length l.length := by
  intro l
  induction l with
  | nil => intro inputs; simp [addInscriptionInputsLoop]
  | cons u rest ih =>
    intro inputs
    simp only [addInscriptionInputsLoop]
    rw [ih]
    simp [List.range'_succ, List.length_append]

theorem collectInscriptionUTXOs_ok_length (chain : Chain) (sellerAddress : String) :
    ∀ (l : List BatchOrdinal) (us : List InscriptionUTXO) (log : List NetCall),
      collectInscriptionUTXOs chain sellerAddress l = (.ok us, log) →
      us.length = l.length := by
  intro l
  induction l with
  | nil =>
    intro us log h
    simp only [collectInscriptionUTXOs, Prod.mk.injEq] at h
    obtain ⟨h1, h2⟩ := h
    cases h1
    rfl
  | cons ord rest ih =>
    intro us log h
    simp only [collectInscriptionUTXOs] at h
    split at h
    · exact absurd h (by simp)
    · split at h
      · exact absurd h (by simp)
      · split at h
        next us2 logRest heq =>
          simp only [Prod.mk.injEq] at h
          obtain ⟨h1, h2⟩ := h
          cases h1
          simp [ih us2 logRest heq]
        next e logRest heq =>
          exact absurd h (by simp)

/-- C4: batch signing indices. Whenever the batch build succeeds, the
returned seller sign-index list is exactly the contiguous range starting at
the operator funding-input count, of length the number of inscriptions, in
input order. -/
theorem batchSwap_sellerInputIndices (env : Env) (chain : Chain) (p : BatchParams)
    (r : BatchResult)
    (h : (createBatchedOrdinalPurchasePSBT env chain p).1 = .ok r) :
    r.details.sellerInputIndices =
      List.range' r.details.harvyInputCount p.ordinals.length := by
  simp only [createBatchedOrdinalPurchasePSBT] at h
  split at h
  · exact absurd h (by simp)
  · split at h
    · exact absurd h (by simp)
    · split at h
      · exact absurd h (by simp)
      next harvyAddress hsome =>
        split at h
        next e log1 heqc => exact absurd h (by simp)
        next us log1 heqc =>
          split at h
          · exact absurd h (by simp)
          · split at h
            next e heqs => exact absurd h (by simp)
            next sel heqs =>
              split at h
              · exact absurd h (by simp)
              · simp only [Prod.fst] at h
                cases h
                have hlen := collectInscriptionUTXOs_ok_length chain p.sellerAddress
                  p.ordinals us log1 heqc
                simp only [addInscriptionInputsLoop_indices us sel.selected, hlen]

/-- Witness for C4: a successful two-ordinal batch build with one funding
input yields the sign indices 1 and 2. -/
theorem batchSwap_sellerInputIndices_witness :
    (createBatchedOrdinalPurchasePSBT envA chainB batchParamsB).1 = .ok batchResultB ∧
    batchResultB.details.sellerInputIndices =
      List.range' batchResultB.details.harvyInputCount batchParamsB.ordinals.length :=
  ⟨by rfl,
   batchSwap_sellerInputIndices envA chainB batchParamsB batchResultB (by rfl)⟩

/-- C1 counterexample: a successful single-swap build with a zero service fee
records output amounts summing to 9100 sats while the operator-selected
inputs plus the inscription input carry 10600 sats, so the claimed
conservation equation fails (the difference is the 1500-sat fee estimate
minus the service fee). -/
theorem singleSwap_conservation_cex :
    ((createOrdinalPurchasePSBT envA chainA purchaseParamsA).1.map
      (fun r => (r.details.outputs.sellerPayment + r.details.outputs.inscriptionValue +
        r.details.outputs.serviceFee + r.details.outputs.harvyChange,
        utxoSum (r.psbtInputs.take r.details.harvyInputCount) +
          r.details.inscriptionUTXO.value)))
      = .ok (9100, 10600) ∧ (9100 : Nat) ≠ 10600 := ⟨by rfl, by decide⟩

/-- C1 as amended: for every successful single-swap build,
sellerPayment + inscriptionValue + serviceFee + harvyChange + 1500 equals
the operator-selected input sum plus the inscription UTXO value plus the
service fee: the fixed 1500-sat fee estimate is deducted from the operator
side, and the service-fee output is not funded by the operator or
inscription inputs (it comes from the seller payment inputs, which have no
change accounting). -/
theorem singleSwap_details_accounting (env : Env) (chain : Chain) (p : PurchaseParams)
    (r : PurchaseResult)
    (h : (createOrdinalPurchasePSBT env chain p).1 = .ok r) :
    r.details.outputs.sellerPayment + r.details.outputs.inscriptionValue +
      r.details.outputs.serviceFee + r.details.outputs.harvyChange + 1500
      = utxoSum (r.psbtInputs.take r.details.harvyInputCount) +
        r.details.inscriptionUTXO.value + r.details.outputs.serviceFee := by
  simp only [createOrdinalPurchasePSBT] at h
  split at h
  · exact absurd h (by simp)
  · split at h
    · exact absurd h (by simp)
    next harvyAddress hsome =>
      split at h
      · exact absurd h (by simp)
      next txidVout hparse =>
        split at h
        · exact absurd h (by simp)
        next inscriptionUTXO hfind =>
          split at h
          · exact absurd h (by simp)
          · split at h
            next e heqs => exact absurd h (by simp)
            next sel heqs =>
              split at h
              · exact absurd h (by simp)
              · simp only [Prod.fst] at h
                cases h
                obtain ⟨h1, h2, h3, _, _⟩ :=
                  selectUTXOs_ok_spec _ p.offerSats 1500 sel heqs
                dsimp only
                rw [List.append_assoc, List.take_left]
                omega

/-- Witness for the amended C1 at the concrete successful build. -/
theorem singleSwap_details_accounting_witness :
    (createOrdinalPurchasePSBT envA chainA purchaseParamsA).1 = .ok purchaseResultA ∧
    purchaseResultA.details.outputs.sellerPayment +
        purchaseResultA.details.outputs.inscriptionValue +
        purchaseResultA.details.outputs.serviceFee +
        purchaseResultA.details.outputs.harvyChange + 1500
      = utxoSum (purchaseResultA.psbtInputs.take
          purchaseResultA.details.harvyInputCount) +
        purchaseResultA.details.inscriptionUTXO.value +
        purchaseResultA.details.outputs.serviceFee :=
  ⟨by rfl,
   singleSwap_details_accounting envA chainA purchaseParamsA purchaseResultA (by rfl)⟩

/-- C9: the selector does not mutate its input array. On the array heap, the
caller's utxos array reads the same after selectUTXOs as before (only the
spread copy is sorted in place), and the returned selection is exactly the
pure selectUTXOs of the caller's array contents. -/
theorem selectUTXOs_noMutation (h : JsArrayHeap) (utxosRef targetSats feeEstimate : Nat)
    (href : utxosRef < h.arrays.length) :
    readArray (selectUTXOsOnHeap h utxosRef targetSats feeEstimate).1 utxosRef
      = readArray h utxosRef ∧
    (selectUTXOsOnHeap h utxosRef targetSats feeEstimate).2
      = selectUTXOs (readArray h utxosRef) targetSats feeEstimate := by
  have hv : readArray (allocArray h (readArray h utxosRef)).1
      (allocArray h (readArray h utxosRef)).2 = readArray h utxosRef := by
    simp only [allocArray, readArray]
    rw [List.getD_eq_getElem?_getD, List.getElem?_concat_length]
    rfl
  constructor
  · simp only [selectUTXOsOnHeap, allocArray, writeArray, readArray]
    rw [List.getD_eq_getElem?_getD, List.getD_eq_getElem?_getD,
      List.getElem?_set_ne (by omega), List.getElem?_append_left href]
  · simp only [selectUTXOsOnHeap]
    rw [hv]
    have hsorted : readArray
        (writeArray (allocArray h (readArray h utxosRef)).1
          (allocArray h (readArray h utxosRef)).2
          (List.insertionSort valueLE (readArray h utxosRef)))
        (allocArray h (readArray h utxosRef)).2
        = List.insertionSort valueLE (readArray h utxosRef) := by
      simp only [allocArray, writeArray, readArray]
      rw [List.getD_eq_getElem?_getD, List.getElem?_set_self (by simp)]
      rfl
    rw [hsorted]
    rfl

/-- Witness for C9 on a one-array heap. -/
theorem selectUTXOs_noMutation_witness :
    readArray (selectUTXOsOnHeap ⟨[[⟨"aa", 0, 5⟩]]⟩ 0 3 1).1 0
      = readArray ⟨[[⟨"aa", 0, 5⟩]]⟩ 0 ∧
    (selectUTXOsOnHeap ⟨[[⟨"aa", 0, 5⟩]]⟩ 0 3 1).2
      = selectUTXOs (readArray ⟨[[⟨"aa", 0, 5⟩]]⟩ 0) 3 1 :=
  selectUTXOs_noMutation ⟨[[⟨"aa", 0, 5⟩]]⟩ 0 3 1 (by decide)

/-- C2 (failing-input exhibit): a request whose current price equals its
purchase price (a zero loss, hence not a strict loss) passes the loss gate
of the create-psbt-offer handler, which only rejects a strictly negative
preliminary loss, and the handler proceeds to build the PSBT, performing
UTXO lookups on the network; the claim requires the InvalidTrade rejection
with no network calls for every currentPriceSats greater than or equal to
purchasePriceSats. -/
theorem lossGate_equalPrices_buildProceeds :
    (createPsbtOffer envA chainA reqB).1.isOk = true ∧
    (createPsbtOffer envA chainA reqB).2 = buildLogA ∧
    NetCall.fetchUTXOs sellerAddrA ∈ (createPsbtOffer envA chainA reqB).2 := by
  have hmain : ((createPsbtOffer envA chainA reqB).1.isOk,
      (createPsbtOffer envA chainA reqB).2) = (true, buildLogA) := by
    simp only [createPsbtOffer, reqB, Option.getD_some]
    rw [if_neg (by decide)]
    rw [if_pos (by decide)]
    rw [if_neg (by decide)]
    rw [if_neg (by decide)]
    rw [if_neg (by decide)]
    rw [if_neg (by decide)]
    rw [if_neg (by decide)]
    rw [if_neg (by decide)]
    rw [if_neg (by decide)]
    rw [if_neg (by norm_num [satsToUSD, calculateServiceFee, round2, round_eq])]
    rw [if_neg (by decide)]
    rfl
  have hfst := congrArg Prod.fst hmain
  have hsnd := congrArg Prod.snd hmain
  simp only at hfst hsnd
  refine ⟨hfst, hsnd, ?_⟩
  rw [hsnd]
  decide

end Harvy
